import Mathlib

/-!
Verification of the Metro Bus Route Planner backend core
(`route_parser.py`, `route_planner.py`, `stops_database.py`, `models.py`)
against its natural-language specification.

The Python code is shallowly embedded: strings are Lean `String`s
manipulated at the character-list level (the data processed by the
program is ASCII; Python's Unicode-aware `\d`, `.lower()`, `.strip()`
and `str.split()` coincide with the ASCII versions modelled here on
that data), wall-clock `datetime.time` values become a record of
hour/minute/second naturals, dictionaries become association lists, and
fallible code returns `Option`.
-/

namespace MetroBus

/-! ## Character and string helpers (Python string semantics, ASCII) -/

/-- Python `\s` / `str.split()` / `str.strip()` whitespace class (ASCII part). -/
def pyIsSpace (c : Char) : Bool :=
  c == ' ' || c == '\t' || c == '\n' || c == '\r' || c == '\x0b' || c == '\x0c'

/-- ASCII lower-casing, as `str.lower()` acts on ASCII data. -/
def lowerChar (c : Char) : Char :=
  if 'A' ≤ c && c ≤ 'Z' then Char.ofNat (c.toNat + 32) else c

def lowerStr (s : String) : String := ⟨s.data.map lowerChar⟩

/-- Case-insensitive equality `a.lower() == b.lower()`. -/
def lowEq (a b : String) : Bool := lowerStr a == lowerStr b

/-- `str.strip()`: drop leading and trailing whitespace. -/
def pyStrip (s : String) : String :=
  ⟨((s.data.dropWhile pyIsSpace).reverse.dropWhile pyIsSpace).reverse⟩

/-- Split a character list on runs of whitespace, dropping empty pieces
(Python `str.split()` with no argument); `acc` holds the current word
reversed. -/
def wsSplitAux : List Char → List Char → List (List Char)
  | [], acc => if acc.isEmpty then [] else [acc.reverse]
  | c :: cs, acc =>
    if pyIsSpace c then
      if acc.isEmpty then wsSplitAux cs [] else acc.reverse :: wsSplitAux cs []
    else wsSplitAux cs (c :: acc)

def wsSplit (cs : List Char) : List (List Char) := wsSplitAux cs []

/-- `str.split()` producing strings. -/
def pySplitWS (s : String) : List String := (wsSplit s.data).map (fun l => ⟨l⟩)

/-- `' '.join(parts)`. -/
def joinSpaces : List String → String
  | [] => ""
  | [x] => x
  | x :: y :: rest => x ++ " " ++ joinSpaces (y :: rest)

/-- Does `hay` start with `pat`? -/
def startsL : List Char → List Char → Bool
  | [], _ => true
  | _ :: _, [] => false
  | p :: ps, h :: hs => p == h && startsL ps hs

/-- Python `pat in hay` substring containment. -/
def containsL (pat : List Char) : List Char → Bool
  | [] => startsL pat []
  | h :: hs => startsL pat (h :: hs) || containsL pat hs

def strContains (hay pat : String) : Bool := containsL pat.data hay.data

def strStartsWith (hay pat : String) : Bool := startsL pat.data hay.data

/-- The text after the last occurrence of `pat` in `hay`
(`hay.split(pat)[-1]`; for the label strings used here, which have no
non-trivial border, Python's left-to-right non-overlapping split makes
its last piece exactly the text after the last occurrence; the whole
string when `pat` does not occur). -/
def afterLastAux (pat : List Char) : List Char → Option (List Char)
  | [] => none
  | h :: hs =>
    match afterLastAux pat hs with
    | some r => some r
    | none =>
      if startsL pat (h :: hs) then some (List.drop pat.length (h :: hs)) else none

def afterLast (hay pat : String) : String :=
  match afterLastAux pat.data hay.data with
  | some r => ⟨r⟩
  | none => hay

/-- Split a character list on a single separator character
(`str.split(sep)` pieces, possibly empty). -/
def splitOnChar (sep : Char) : List Char → List (List Char)
  | [] => [[]]
  | c :: cs =>
    let rest := splitOnChar sep cs
    if c == sep then [] :: rest
    else
      match rest with
      | [] => [[c]]
      | p :: ps => (c :: p) :: ps

def digitsToNat : List Char → Nat
  | [] => 0
  | c :: cs => (digitsToNat cs) + c.toNat.sub 48 * 10 ^ cs.length

/-- `int(s)` on an already-stripped string: optional sign then one or
more ASCII digits (digit-group underscores are not used by this data
and are not modelled). -/
def pyInt (s : String) : Option Int :=
  match s.data with
  | [] => none
  | '-' :: ds => if ds ≠ [] && ds.all Char.isDigit then some (-(digitsToNat ds : Int)) else none
  | '+' :: ds => if ds ≠ [] && ds.all Char.isDigit then some ((digitsToNat ds : Int)) else none
  | ds => if ds.all Char.isDigit then some ((digitsToNat ds : Int)) else none

/-! ## Wall-clock times (`datetime.time`) and `RouteParser.parse_time` -/

/-- `datetime.time`: hour, minute, second (microseconds unused here). -/
structure PTime where
  h : Nat
  m : Nat
  s : Nat
deriving DecidableEq, Repr

def midnight : PTime := ⟨0, 0, 0⟩

/-- A 1-or-2-digit numeric field, as matched by `strptime`'s `%H`/`%M`/`%S`
directives (each matches one or two digits; the value range is enforced
below). -/
def fieldVal (f : List Char) : Option Nat :=
  if f ≠ [] && f.length ≤ 2 && f.all Char.isDigit then some (digitsToNat f) else none

/-- `datetime.strptime(s, "%H:%M:%S").time()` as a total function.
`%H` accepts values 0–23, `%M` 0–59; `%S`'s pattern accepts 60/61 but the
`time` constructor then raises `ValueError`, which the caller's `except`
turns into the same failure as a pattern mismatch, so the net acceptance
is seconds 0–59. The match must cover the whole string. -/
def strptimeHMS (cs : List Char) : Option PTime :=
  match splitOnChar ':' cs with
  | [a, b, c] =>
    match fieldVal a, fieldVal b, fieldVal c with
    | some hh, some mm, some ss =>
      if hh ≤ 23 && mm ≤ 59 && ss ≤ 59 then some ⟨hh, mm, ss⟩ else none
    | _, _, _ => none
  | _ => none

/-- `datetime.strptime(s, "%H:%M").time()` as a total function. -/
def strptimeHM (cs : List Char) : Option PTime :=
  match splitOnChar ':' cs with
  | [a, b] =>
    match fieldVal a, fieldVal b with
    | some hh, some mm => if hh ≤ 23 && mm ≤ 59 then some ⟨hh, mm, 0⟩ else none
    | _, _ => none
  | _ => none

/-- `RouteParser.parse_time`: try `%H:%M:%S`, fall back to `%H:%M`,
fall back to `time(0, 0)`. Never raises. -/
def parseTime (time_str : String) : PTime :=
  match strptimeHMS (pyStrip time_str).data with
  | some t => t
  | none =>
    match strptimeHM (pyStrip time_str).data with
    | some t => t
    | none => midnight

/-! ## Data model (`models.py`) -/

inductive Direction where
  | Forward
  | Backward
deriving DecidableEq, Repr

/-- `Direction(value)` on a string value; raises (here: `none`) on any
other value. -/
def directionOfString : String → Option Direction
  | "Forward" => some Direction.Forward
  | "Backward" => some Direction.Backward
  | _ => none

inductive MetroLine where
  | GREEN
  | BLUE
deriving DecidableEq, Repr

/-- `MetroLine.value` (the enum's string value). -/
def MetroLine.value : MetroLine → String
  | .GREEN => "GREEN"
  | .BLUE => "BLUE"

structure Stop where
  name : String
  arrival_time : Option PTime
  departure_time : Option PTime
  sequence : Nat
deriving DecidableEq, Repr

structure Trip where
  trip_id : String
  start_time : PTime
  stops : List Stop
deriving DecidableEq, Repr

structure Route where
  route_id : String
  short_name : String
  long_name : String
  direction : Direction
  total_trips : Int
  average_headway : Int
  trips : List Trip
deriving DecidableEq, Repr

structure RoutePlanningRequest where
  origin : String
  destination : String
  preferred_time : Option PTime
  max_wait_time : Int := 30
  metro_line : Option MetroLine
deriving DecidableEq, Repr

structure RouteSegment where
  route_name : String
  direction : Direction
  trip_id : String
  start_stop : String
  end_stop : String
  departure_time : PTime
  arrival_time : PTime
  duration_minutes : Nat
  metro_line : Option MetroLine
deriving DecidableEq, Repr

structure RoutePlan where
  origin : String
  destination : String
  total_duration : Nat
  segments : List RouteSegment
  total_wait_time : Nat
  instructions : List String
  metro_lines : List MetroLine
deriving DecidableEq, Repr

/-! ## Schedule parser (`route_parser.py`) -/

/-- `re.match(r'\d{2}:\d{2}:\d{2}', tok)`: a *prefix* match — the token
must *begin* with two digits, a colon, two digits, a colon, two digits;
anything may follow. -/
def hmsShapeAt : List Char → Bool
  | a :: b :: ':' :: c :: d :: ':' :: e :: f :: _ =>
    a.isDigit && b.isDigit && c.isDigit && d.isDigit && e.isDigit && f.isDigit
  | _ => false

/-- `re.match(r'\d+-\d+\s+\d{2}:\d{2}:\d{2}', line)`: one or more digits,
a dash, one or more digits, whitespace, then an `HH:MM:SS`-shaped
prefix. (The regex is anchored at the start only; the subpatterns have
no overlap so maximal munch is exact.) -/
def isTripStart (s : String) : Bool :=
  let cs := s.data
  let d1 := cs.takeWhile Char.isDigit
  let r1 := cs.dropWhile Char.isDigit
  !d1.isEmpty &&
    match r1 with
    | '-' :: r2 =>
      let d2 := r2.takeWhile Char.isDigit
      let r3 := r2.dropWhile Char.isDigit
      !d2.isEmpty &&
        let w := r3.takeWhile pyIsSpace
        let r4 := r3.dropWhile pyIsSpace
        !w.isEmpty && hmsShapeAt r4
    | _ => false

/-- The in-progress trip of `extract_trips_from_lines`
(`current_trip` plus `current_stops`). -/
structure CurTrip where
  trip_id : String
  start_time : PTime
  stops : List Stop
deriving DecidableEq, Repr

/-- Stop-record handling for one (already stripped) line inside a trip
block: split into whitespace tokens; if there are at least three and the
last two both `re.match` the time pattern, append a `Stop` whose
`sequence` is the running count so far plus one. -/
def stepStop (c : CurTrip) (line : String) : CurTrip :=
  let parts := pySplitWS line
  if 3 ≤ parts.length then
    let time1 := (parts.get? (parts.length - 2)).getD ""
    let time2 := (parts.get? (parts.length - 1)).getD ""
    if hmsShapeAt time1.data && hmsShapeAt time2.data then
      let stop_name := joinSpaces (parts.take (parts.length - 2))
      { c with
        stops := c.stops ++
          [{ name := stop_name
             arrival_time := some (parseTime time1)
             departure_time := some (parseTime time2)
             sequence := c.stops.length + 1 }] }
    else c
  else c

/-- Start a new trip from a (stripped) trip-boundary line:
`parts[0]` is the trip id, `parse_time(parts[1])` its start time (the
boundary regex guarantees at least two tokens). -/
def startTrip (s : String) : CurTrip :=
  let parts := pySplitWS s
  { trip_id := (parts.get? 0).getD ""
    start_time := parseTime ((parts.get? 1).getD "")
    stops := [] }

/-- `if current_trip and current_stops: trips.append(current_trip)` —
a trip with no accepted stop records is dropped. -/
def flushTrip : Option CurTrip → List Trip
  | none => []
  | some c => if c.stops.isEmpty then [] else [⟨c.trip_id, c.start_time, c.stops⟩]

/-- The line-scanning loop of `extract_trips_from_lines`.  On a trip
boundary the previous trip is flushed, a new one is started and an
optional `stop_name …` column-header line immediately after the boundary
is skipped; any other line is a candidate stop record for the current
trip (and is ignored before the first boundary). -/
def extractAux : List String → Option CurTrip → List Trip → List Trip
  | [], cur, acc => acc ++ flushTrip cur
  | l :: rest, cur, acc =>
    let s := pyStrip l
    if isTripStart s then
      let acc2 := acc ++ flushTrip cur
      let c := startTrip s
      match rest with
      | [] => acc2 ++ flushTrip (some c)
      | h :: t =>
        if strContains h "stop_name" then extractAux t (some c) acc2
        else extractAux (h :: t) (some c) acc2
    else
      match cur with
      | none => extractAux rest none acc
      | some c => extractAux rest (some (stepStop c s)) acc

/-- `RouteParser.extract_trips_from_lines`. -/
def extractTrips (lines : List String) : List Trip :=
  extractAux lines none []

/-- The field map accumulated by `extract_route_info_from_lines`
(a Python dict; `none` = key never set). -/
structure RouteInfo where
  route_id : Option String := none
  short_name : Option String := none
  long_name : Option String := none
  direction : Option String := none
  total_trips : Option Int := none
  average_headway : Option Int := none
deriving DecidableEq, Repr

/-- One iteration of `extract_route_info_from_lines`' `elif` chain;
`none` models an uncaught `ValueError` from `int(...)`. -/
def procInfoLine (info : RouteInfo) (line : String) : Option RouteInfo :=
  if strContains line "Route ID" then
    some { info with route_id := some (pyStrip (afterLast line "Route ID")) }
  else if strContains line "Short Name" then
    some { info with short_name := some (pyStrip (afterLast line "Short Name")) }
  else if strContains line "Long Name" then
    some { info with long_name := some (pyStrip (afterLast line "Long Name")) }
  else if strContains line "Direction" then
    some { info with direction := some (pyStrip (afterLast line "Direction")) }
  else if strContains line "Total Trips" then
    match pyInt (pyStrip (afterLast line "Total Trips")) with
    | some n => some { info with total_trips := some n }
    | none => none
  else if strContains line "Average Headway (min)" then
    match pyInt (pyStrip (afterLast line "Average Headway (min)")) with
    | some n => some { info with average_headway := some n }
    | none => none
  else some info

/-- `RouteParser.extract_route_info_from_lines` (failure = `ValueError`
escaping from `int(...)`). -/
def extractRouteInfo (lines : List String) : Option RouteInfo :=
  lines.foldlM procInfoLine {}

/-- `RouteParser.parse_route_from_json`: the whole body runs under a
`try`/`except` returning `None`; an empty field map, an `int(...)`
failure, or an invalid `Direction(...)` value all yield `None`. -/
def parseRouteFromJson (lines : List String) : Option Route :=
  match extractRouteInfo lines with
  | none => none
  | some info =>
    if info = {} then none
    else
      match directionOfString ((info.direction).getD "Forward") with
      | none => none
      | some dir =>
        some
          { route_id := (info.route_id).getD ""
            short_name := (info.short_name).getD ""
            long_name := (info.long_name).getD ""
            direction := dir
            total_trips := (info.total_trips).getD 0
            average_headway := (info.average_headway).getD 60
            trips := extractTrips lines }

/-- `RouteParser.load_all_routes`, given the decoded JSON mapping as an
association list of route key ↦ `lines` array: routes whose parse fails
are skipped, the rest are cached in order. -/
def loadAllRoutes (routes_data : List (String × List String)) :
    List (String × Route) :=
  routes_data.foldl
    (fun cache kd =>
      match parseRouteFromJson kd.2 with
      | some route => cache ++ [(kd.1, route)]
      | none => cache)
    []

/-! ## Stop directory (`stops_database.py`) -/

/-- `Station` (geometry is irrelevant to the merge logic verified here;
the float coordinate pair is abstracted to an opaque integer pair). -/
structure Station where
  id : String
  name : String
  line_code : String
  is_interchange : Bool
  coordinates : Int × Int
  line_name : String
deriving DecidableEq, Repr

/-- The fixed Blue Line alias table
(`StopsDatabase.blue_line_stop_mapping`). -/
def blueLineStopMapping : List (String × String) :=
  [("GULBERG", "Gulberg"),
   ("KORAL CHOWK", "Koral Town"),
   ("GANGAL", "Gangal"),
   ("FAZAIA", "Fazaia"),
   ("KHANNA PUL", "Khanna Pul"),
   ("ZIA MASJID", "Zia Masjid"),
   ("KURI ROAD", "Kuri Road"),
   ("IQBAL TOWN", "Iqbal Town"),
   ("DHOKE KALA KHAN", "Dhok Kala Khan"),
   ("SOHAN", "Sohan"),
   ("PARADE GROUND", "Parade Ground"),
   ("SHAKARPARIAN", "Shakarparian"),
   ("G-7 / G-8", "G-8 Markaz"),
   ("CHILDREN HOSPITAL", "Children Hospital"),
   ("PIMS GATE", "PIMS Hospital"),
   ("PIMS STATION", "PIMS Metro Station")]

/-- Association-list lookup (Python `dict` access by key). -/
def lookupA {β : Type} (m : List (String × β)) (k : String) : Option β :=
  match m with
  | [] => none
  | (k', v) :: rest => if k' = k then some v else lookupA rest k

/-- In-place update of the value stored under a key. -/
def updateA {β : Type} (m : List (String × β)) (k : String) (v : β) :
    List (String × β) :=
  m.map (fun kv => if kv.1 = k then (k, v) else kv)

/-- `StopsDatabase.map_stop_name_for_routes(stop_name, 'BLUE')`. -/
def mapStopNameForRoutes (stop_name : String) : String :=
  match lookupA blueLineStopMapping stop_name with
  | some mapped => mapped
  | none => stop_name

/-- The duplicate-name handling shared by `_load_line_stops` and
`load_green_line_from_routes`: a station stored under an existing name
whose `line_code` differs from the line being loaded gets
`existing.line_code + "/" + line_code` and `is_interchange = True`;
an unseen name is inserted. -/
def mergeStationRecord (stations : List (String × Station)) (st : Station)
    (line_code : String) : List (String × Station) :=
  match lookupA stations st.name with
  | some existing =>
    if existing.line_code ≠ line_code then
      updateA stations st.name
        { existing with
          line_code := existing.line_code ++ "/" ++ line_code
          is_interchange := true }
    else stations
  | none => stations ++ [(st.name, st)]

/-- `StopsDatabase._load_line_stops`: fold the records of one line's
source through the merge step. -/
def loadLineStops (stations : List (String × Station))
    (records : List Station) (line_code : String) : List (String × Station) :=
  records.foldl (fun acc r => mergeStationRecord acc r line_code) stations

/-! ## Route planner (`route_planner.py`) -/

/-- `RoutePlanner._classify_route_line`. -/
def classifyRouteLine (route_short_name : String) : String :=
  if strStartsWith route_short_name "FRG-" then "GREEN"
  else if strStartsWith route_short_name "FR-" then "BLUE"
  else "UNKNOWN"

/-- `RoutePlanner._filter_routes_by_line`. -/
def filterRoutesByLine (routes : List (String × Route))
    (metro_line : Option String) : List (String × Route) :=
  match metro_line with
  | none => routes
  | some l => routes.filter (fun kr => classifyRouteLine kr.2.short_name == l)

/-- Seconds since midnight of a wall-clock time (`datetime.combine`
against a fixed date reduces the comparison and subtraction in
`minutes_forward` to this). -/
def toSecs (t : PTime) : Nat := t.h * 3600 + t.m * 60 + t.s

/-- `RoutePlanner.minutes_forward`: minutes from `from_time` forward to
the next occurrence of `to_time`, wrapping past midnight; Python's
`total_seconds() // 60` floors. -/
def minutesForward (from_time to_time : PTime) : Nat :=
  if toSecs to_time < toSecs from_time then
    (toSecs to_time + 86400 - toSecs from_time) / 60
  else
    (toSecs to_time - toSecs from_time) / 60

/-- `RoutePlanner.circular_abs_minutes`. -/
def circularAbsMinutes (t1 t2 : PTime) : Nat :=
  min (minutesForward t1 t2) (minutesForward t2 t1)

/-- `RoutePlanner.calculate_time_difference` (alias of
`minutes_forward`). -/
def calculateTimeDifference (time1 time2 : PTime) : Nat :=
  minutesForward time1 time2

/-- A stop's stored optional time; the parser always stores concrete
times (`extractAux` only ever builds `some`), so the `datetime`
arithmetic in the source never actually sees `None` on parsed data. -/
def timeOr0 (t : Option PTime) : PTime := t.getD midnight

/-- The per-trip stop scan of `find_best_trip`: the last stop whose
lower-cased name equals the origin becomes the origin stop, `elif` the
destination likewise (no alias mapping here). -/
def findStopsIn (origin destination : String) (stops : List Stop) :
    Option Stop × Option Stop :=
  stops.foldl
    (fun acc s =>
      if lowEq s.name origin then (some s, acc.2)
      else if lowEq s.name destination then (acc.1, some s)
      else acc)
    (none, none)

/-- The tuple score of `find_best_trip`:
with a preferred time, (circular absolute minutes to the origin
departure, journey minutes); without, (forward minutes from 06:00 to
the departure, journey minutes). -/
def tripScore (pref : Option PTime) (origin_stop destination_stop : Stop) :
    Nat × Nat :=
  let journey := calculateTimeDifference (timeOr0 origin_stop.departure_time)
    (timeOr0 destination_stop.arrival_time)
  match pref with
  | some p =>
    let fwd := calculateTimeDifference p (timeOr0 origin_stop.departure_time)
    let bwd := calculateTimeDifference (timeOr0 origin_stop.departure_time) p
    (min fwd bwd, journey)
  | none =>
    (calculateTimeDifference ⟨6, 0, 0⟩ (timeOr0 origin_stop.departure_time),
      journey)

/-- Python tuple `<` on the two-component scores. -/
def scoreLt (a b : Nat × Nat) : Bool :=
  a.1 < b.1 || (a.1 == b.1 && a.2 < b.2)

/-- The trip loop of `find_best_trip`: the accumulator pairs the best
candidate with its score (`best_score` starts at `(inf, inf)`,
modelled by `none`); a candidate replaces the best only on a strictly
smaller score. -/
def findBestAux (pref : Option PTime) (origin destination : String) :
    List Trip → Option ((Trip × Stop × Stop) × (Nat × Nat)) →
    Option ((Trip × Stop × Stop) × (Nat × Nat))
  | [], best => best
  | t :: ts, best =>
    match findStopsIn origin destination t.stops with
    | (some o, some d) =>
      if o.sequence < d.sequence then
        let sc := tripScore pref o d
        match best with
        | none => findBestAux pref origin destination ts (some ((t, o, d), sc))
        | some (b, bsc) =>
          if scoreLt sc bsc then
            findBestAux pref origin destination ts (some ((t, o, d), sc))
          else findBestAux pref origin destination ts (some (b, bsc))
      else findBestAux pref origin destination ts best
    | _ => findBestAux pref origin destination ts best

/-- `RoutePlanner.find_best_trip`. -/
def findBestTrip (route : Route) (origin destination : String)
    (pref : Option PTime) : Option (Trip × Stop × Stop) :=
  (findBestAux pref origin destination route.trips none).map (·.1)

/-- The per-trip scan state of `find_routes_between_stops`
(`origin_found`, `destination_found` and the `-1`-initialised
sequence slots). -/
structure FindState where
  origin_found : Bool := false
  destination_found : Bool := false
  origin_sequence : Int := -1
  destination_sequence : Int := -1
deriving DecidableEq, Repr

/-- Exact case-insensitive match branch of the stop scan (`elif` makes
the destination check conditional on the origin check failing). -/
def scanExact (origin destination : String) (st : FindState) (s : Stop) :
    FindState :=
  if lowEq s.name origin then
    { st with origin_found := true, origin_sequence := (s.sequence : Int) }
  else if lowEq s.name destination then
    { st with destination_found := true,
              destination_sequence := (s.sequence : Int) }
  else st

/-- Fallback origin match against the Blue Line alias of the query name. -/
def scanMappedOrigin (origin : String) (st : FindState) (s : Stop) :
    FindState :=
  if !st.origin_found then
    if lowEq s.name (mapStopNameForRoutes origin) then
      { st with origin_found := true, origin_sequence := (s.sequence : Int) }
    else st
  else st

/-- Fallback destination match against the Blue Line alias. -/
def scanMappedDestination (destination : String) (st : FindState) (s : Stop) :
    FindState :=
  if !st.destination_found then
    if lowEq s.name (mapStopNameForRoutes destination) then
      { st with destination_found := true,
                destination_sequence := (s.sequence : Int) }
    else st
  else st

/-- One stop of the scan loop in `find_routes_between_stops`. -/
def scanStop (origin destination : String) (st : FindState) (s : Stop) :
    FindState :=
  scanMappedDestination destination
    (scanMappedOrigin origin (scanExact origin destination st s) s) s

/-- Does one trip connect origin to destination (both found, origin's
sequence strictly before the destination's)? -/
def tripConnects (origin destination : String) (t : Trip) : Bool :=
  let st := t.stops.foldl (scanStop origin destination) {}
  st.origin_found && st.destination_found &&
    st.origin_sequence < st.destination_sequence

/-- `RouteParser.find_routes_between_stops` over the loaded route map:
a route qualifies if any of its trips connects the pair (the source
`break`s at the first such trip). -/
def findRoutesBetweenStops (routes : List (String × Route))
    (origin destination : String) : List (String × Route) :=
  routes.filter (fun kr => kr.2.trips.any (tripConnects origin destination))

/-- Zero-padded `strftime('%H:%M')`. -/
def pad2 (n : Nat) : String := if n < 10 then "0" ++ toString n else toString n

def fmtHM (t : PTime) : String := pad2 t.h ++ ":" ++ pad2 t.m

/-- The `RoutePlan` built for one qualifying route in `plan_route`. -/
def mkRoutePlan (request : RoutePlanningRequest) (route : Route)
    (trip : Trip) (origin_stop destination_stop : Stop) : RoutePlan :=
  let journey_time := calculateTimeDifference
    (timeOr0 origin_stop.departure_time) (timeOr0 destination_stop.arrival_time)
  let segment : RouteSegment :=
    { route_name := route.short_name
      direction := route.direction
      trip_id := trip.trip_id
      start_stop := origin_stop.name
      end_stop := destination_stop.name
      departure_time := timeOr0 origin_stop.departure_time
      arrival_time := timeOr0 destination_stop.arrival_time
      duration_minutes := journey_time
      metro_line := request.metro_line }
  let instructions : List String :=
    ["Take " ++ route.short_name ++ " (" ++ route.long_name ++ ") from " ++
       origin_stop.name,
     "Departure time: " ++ fmtHM (timeOr0 origin_stop.departure_time),
     "Arrive at " ++ destination_stop.name ++ " at " ++
       fmtHM (timeOr0 destination_stop.arrival_time),
     "Journey duration: " ++ toString journey_time ++ " minutes"]
  let wait_time :=
    match request.preferred_time with
    | some p =>
      let fwd := calculateTimeDifference p (timeOr0 origin_stop.departure_time)
      let bwd := calculateTimeDifference (timeOr0 origin_stop.departure_time) p
      min fwd bwd
    | none => 0
  { origin := request.origin
    destination := request.destination
    total_duration := journey_time + wait_time
    segments := [segment]
    total_wait_time := wait_time
    instructions := instructions
    metro_lines :=
      match request.metro_line with
      | some l => [l]
      | none => [] }

/-- Insert after every element the comparison keeps below-or-equal —
the insertion step of a stable ascending sort. -/
def insertLe {α : Type} (le : α → α → Bool) (x : α) : List α → List α
  | [] => [x]
  | y :: ys => if le y x then y :: insertLe le x ys else x :: y :: ys

/-- Stable ascending sort (`list.sort(key=...)` is guaranteed stable;
equal keys keep their original order because each element is inserted
after existing equals). -/
def stableSort {α : Type} (le : α → α → Bool) (l : List α) : List α :=
  l.foldl (fun acc x => insertLe le x acc) []

/-- `x.segments[0].duration_minutes` (plans built above always carry
exactly one segment; the source would raise `IndexError` otherwise). -/
def firstSegDuration (x : RoutePlan) : Nat :=
  match x.segments with
  | s :: _ => s.duration_minutes
  | [] => 0

/-- The sort key used when a preferred time is given. -/
def waitKeyLe (a b : RoutePlan) : Bool :=
  a.total_wait_time < b.total_wait_time ||
    (a.total_wait_time == b.total_wait_time &&
      firstSegDuration a ≤ firstSegDuration b)

/-- The sort key used without a preferred time. -/
def durKeyLe (a b : RoutePlan) : Bool :=
  a.total_duration ≤ b.total_duration

/-- `RoutePlanner.plan_route` over an explicit loaded route map:
discover connecting routes, optionally filter by line, pick the best
trip per route, then rank and cap at five. -/
def planRoute (routes : List (String × Route))
    (request : RoutePlanningRequest) : List RoutePlan :=
  let connecting := findRoutesBetweenStops routes request.origin
    request.destination
  let connecting := filterRoutesByLine connecting
    (request.metro_line.map MetroLine.value)
  let route_plans := connecting.filterMap
    (fun kr =>
      (findBestTrip kr.2 request.origin request.destination
          request.preferred_time).map
        (fun tod => mkRoutePlan request kr.2 tod.1 tod.2.1 tod.2.2))
  match request.preferred_time with
  | some _ => (stableSort waitKeyLe route_plans).take 5
  | none => (stableSort durKeyLe route_plans).take 5

/-! ## Specification-side definitions

These follow the wording of the specification (or of the minimally
amended claims) rather than the source, and are compared with the
source-derived definitions above. -/

/-- Claim side (C1, C6): a well-formed `HH:MM:SS` time string — exactly
two digits, colon, two digits, colon, two digits, with in-range
hour/minute/second values. -/
def exactHMSTime (s : String) : Bool :=
  match s.data with
  | [a, b, ':', c, d, ':', e, f] =>
    a.isDigit && b.isDigit && c.isDigit && d.isDigit && e.isDigit && f.isDigit &&
      digitsToNat [a, b] ≤ 23 && digitsToNat [c, d] ≤ 59 && digitsToNat [e, f] ≤ 59
  | _ => false

/-- Claim side (C6): a well-formed `HH:MM` time string. -/
def exactHMTime (s : String) : Bool :=
  match s.data with
  | [a, b, ':', c, d] =>
    a.isDigit && b.isDigit && c.isDigit && d.isDigit &&
      digitsToNat [a, b] ≤ 23 && digitsToNat [c, d] ≤ 59
  | _ => false

/-- Claim side (C6, amended): a `strptime` numeric field of one or two
digits whose value is at most `bound`. -/
def flexField (f : List Char) (bound : Nat) : Option Nat :=
  match f with
  | [a] =>
    if a.isDigit && a.toNat - 48 ≤ bound then some (a.toNat - 48) else none
  | [a, b] =>
    if a.isDigit && b.isDigit && (b.toNat - 48) + (a.toNat - 48) * 10 ≤ bound
    then some ((b.toNat - 48) + (a.toNat - 48) * 10) else none
  | _ => none

/-- Claim side (C6, amended): the time parser returns the denoted time
when the stripped string splits on `:` into exactly three
one-or-two-digit fields with hour ≤ 23, minute ≤ 59, second ≤ 59;
otherwise the denoted time with seconds zero for two such hour/minute
fields; otherwise exactly midnight. -/
def specParseTimeAmended (s : String) : PTime :=
  match splitOnChar ':' (pyStrip s).data with
  | [a, b, c] =>
    match flexField a 23, flexField b 59, flexField c 59 with
    | some hh, some mm, some ss => ⟨hh, mm, ss⟩
    | _, _, _ => midnight
  | [a, b] =>
    match flexField a 23, flexField b 59 with
    | some hh, some mm => ⟨hh, mm, 0⟩
    | _, _ => midnight
  | _ => midnight

/-! ## C5 — wrap-safe time distances -/

/-- C5: `minutes_forward` is the non-negative forward distance on a
24-hour clock wrapping past midnight — in seconds, `(to - from) mod
86400`, floored to minutes — with the two concrete distances from the
spec, and `circular_abs_minutes` is the minimum of the two forward
distances, circularly 4 minutes between 23:58:00 and 00:02:00. -/
theorem spec_C5_time_distances :
    (∀ t1 t2 : PTime, toSecs t1 < 86400 → toSecs t2 < 86400 →
      minutesForward t1 t2 = ((toSecs t2 + 86400 - toSecs t1) % 86400) / 60) ∧
    minutesForward ⟨23, 58, 0⟩ ⟨0, 2, 0⟩ = 4 ∧
    minutesForward ⟨0, 2, 0⟩ ⟨23, 58, 0⟩ = 1436 ∧
    (∀ t1 t2 : PTime,
      circularAbsMinutes t1 t2 =
        min (minutesForward t1 t2) (minutesForward t2 t1)) ∧
    circularAbsMinutes ⟨23, 58, 0⟩ ⟨0, 2, 0⟩ = 4 := by
  refine ⟨?_, by decide, by decide, fun t1 t2 => rfl, by decide⟩
  intro t1 t2 h1 h2
  unfold minutesForward
  split <;> omega

/-- Witness for C5 at 23:58:00 → 00:02:00. -/
theorem spec_C5_witness :
    minutesForward ⟨23, 58, 0⟩ ⟨0, 2, 0⟩ =
      ((toSecs ⟨0, 2, 0⟩ + 86400 - toSecs ⟨23, 58, 0⟩) % 86400) / 60 :=
  spec_C5_time_distances.1 ⟨23, 58, 0⟩ ⟨0, 2, 0⟩ (by decide) (by decide)

/-! ## C6 — tolerant time parsing -/

/-- C6 counterexample: `"8:05:00"` is neither a well-formed `HH:MM:SS`
string (one-digit hour) nor a well-formed `HH:MM` string, so the claim
requires `parse_time` to return midnight; the code (via `strptime`'s
one-or-two-digit `%H`) returns 08:05:00. -/
theorem spec_C6_counterexample :
    parseTime "8:05:00" = ⟨8, 5, 0⟩ ∧
    exactHMSTime "8:05:00" = false ∧
    exactHMTime "8:05:00" = false ∧
    (⟨8, 5, 0⟩ : PTime) ≠ midnight := by
  decide

theorem flexField_eq (f : List Char) (bound : Nat) :
    flexField f bound =
      match fieldVal f with
      | some v => if v ≤ bound then some v else none
      | none => none := by
  match f with
  | [] => rfl
  | [a] =>
    simp only [flexField, fieldVal]
    by_cases ha : a.isDigit <;> simp [ha, digitsToNat]
  | [a, b] =>
    simp only [flexField, fieldVal]
    by_cases ha : a.isDigit <;> by_cases hb : b.isDigit <;>
      simp [ha, hb, digitsToNat]
  | a :: b :: c :: rest =>
    simp [flexField, fieldVal]

/-- C6 (amended): `parse_time` accepts `strptime`-style times whose
colon-separated fields are one *or two* digits wide (in-range values),
falls back to hour:minute the same way, and otherwise returns exactly
midnight — never raising; with the claim's three examples. -/
theorem spec_C6_parse_time :
    (∀ s : String, parseTime s = specParseTimeAmended s) ∧
    parseTime "08:05:00" = ⟨8, 5, 0⟩ ∧
    parseTime "08:05" = ⟨8, 5, 0⟩ ∧
    parseTime "garbage" = midnight := by
  refine ⟨?_, by decide, by decide, by decide⟩
  intro s
  unfold parseTime specParseTimeAmended strptimeHMS strptimeHM
  rcases hsp : splitOnChar ':' (pyStrip s).data with _ | ⟨a, _ | ⟨b, _ | ⟨c, _ | ⟨d, rest⟩⟩⟩⟩
  · rfl
  · rfl
  · rcases hfa : fieldVal a with _ | va <;> rcases hfb : fieldVal b with _ | vb <;>
      simp [flexField_eq, hfa, hfb]
    by_cases h1 : va ≤ 23 <;> by_cases h2 : vb ≤ 59 <;> simp [h1, h2]
  · rcases hfa : fieldVal a with _ | va <;> rcases hfb : fieldVal b with _ | vb <;>
      rcases hfc : fieldVal c with _ | vc <;>
      simp [flexField_eq, hfa, hfb, hfc]
    by_cases h1 : va ≤ 23 <;> by_cases h2 : vb ≤ 59 <;> by_cases h3 : vc ≤ 59 <;>
      simp [h1, h2, h3]
  · rfl

/-! ## C4 — interchange merge is not idempotent (code bug) -/

/-- A Green Line station already stored under name `X`. -/
def stationXGreen : Station :=
  { id := "GL_1", name := "X", line_code := "GREEN", is_interchange := false,
    coordinates := (0, 0), line_name := "Green Line" }

/-- A Blue Line source record for the same station name `X`. -/
def recordXBlue : Station :=
  { id := "2", name := "X", line_code := "BLUE", is_interchange := false,
    coordinates := (0, 0), line_name := "Blue Line" }

/-- C4: the first Blue Line load merges `X` into an interchange with
composite `line_code` "GREEN/BLUE" (each tag once), but loading the
same Blue Line records *again* appends another "/BLUE" — the merge
condition only compares against the single line tag, so re-merging is
not idempotent and duplicates the tag, contradicting the claim (and the
spec's stated intent). -/
theorem spec_C4_merge_not_idempotent :
    (lookupA (loadLineStops [("X", stationXGreen)] [recordXBlue] "BLUE")
        "X").map Station.line_code = some "GREEN/BLUE" ∧
    (lookupA (loadLineStops [("X", stationXGreen)] [recordXBlue] "BLUE")
        "X").map Station.is_interchange = some true ∧
    (lookupA
        (loadLineStops
          (loadLineStops [("X", stationXGreen)] [recordXBlue] "BLUE")
          [recordXBlue] "BLUE")
        "X").map Station.line_code = some "GREEN/BLUE/BLUE" ∧
    loadLineStops (loadLineStops [("X", stationXGreen)] [recordXBlue] "BLUE")
        [recordXBlue] "BLUE" ≠
      loadLineStops [("X", stationXGreen)] [recordXBlue] "BLUE" := by
  decide

/-! ## C1 — stop-record acceptance inside a trip block -/

/-- C1 counterexample: the time checks are `re.match`, i.e. *prefix*
matches, so the line "Central Station 08:00:00 08:02:00x" — whose last
token is not a well-formed `HH:MM:SS` time — is still accepted as a
stop record (with departure falling back to midnight), where the claim
says it must produce no stop record. -/
theorem spec_C1_counterexample :
    extractTrips ["1-1 08:00:00", "Central Station 08:00:00 08:02:00x"] =
      [{ trip_id := "1-1", start_time := ⟨8, 0, 0⟩,
         stops := [{ name := "Central Station",
                     arrival_time := some ⟨8, 0, 0⟩,
                     departure_time := some midnight,
                     sequence := 1 }] }] ∧
    exactHMSTime "08:02:00x" = false := by
  decide

/-- Claim side (C1, amended): a line inside a trip block is accepted as
a stop record iff it has at least three whitespace tokens — a last and
a second-to-last token each *beginning with* an `HH:MM:SS`-shaped
prefix, and a nonempty remainder of leading tokens; the leading tokens
rejoined with single spaces are the stop name, and arrival/departure
come from the tolerant time parser applied to the two time tokens. -/
def specStopLine (line : String) : Option (String × PTime × PTime) :=
  match (pySplitWS line).reverse with
  | t2 :: t1 :: r :: rs =>
    if hmsShapeAt t1.data && hmsShapeAt t2.data then
      some (joinSpaces (r :: rs).reverse, parseTime t1, parseTime t2)
    else none
  | _ => none

theorem specStopLine_eq_stepStop (c : CurTrip) (line : String) :
    stepStop c line =
      match specStopLine line with
      | some r =>
        { c with stops := c.stops ++
            [{ name := r.1, arrival_time := some r.2.1,
               departure_time := some r.2.2,
               sequence := c.stops.length + 1 }] }
      | none => c := by
  unfold stepStop specStopLine
  rcases hrev : (pySplitWS line).reverse with _ | ⟨t2, _ | ⟨t1, _ | ⟨r0, rs⟩⟩⟩ <;>
    have hp : pySplitWS line = ((pySplitWS line).reverse).reverse :=
      (List.reverse_reverse _).symm <;>
    rw [hrev] at hp <;> rw [hp]
  · simp
  · simp
  · simp
  · rw [show (t2 :: t1 :: r0 :: rs).reverse =
          (r0 :: rs).reverse ++ [t1, t2] by simp]
    have hR : ((r0 :: rs).reverse).length = rs.length + 1 := by simp
    have h1 : ((r0 :: rs).reverse ++ [t1, t2]).length = rs.length + 3 := by
      simp
    dsimp only
    rw [h1]
    have e2 : ((r0 :: rs).reverse ++ [t1, t2]).get? (rs.length + 3 - 2) =
        some t1 := by
      rw [List.get?_eq_getElem?, List.getElem?_append_right (by omega)]
      simp [hR]
    have e3 : ((r0 :: rs).reverse ++ [t1, t2]).get? (rs.length + 3 - 1) =
        some t2 := by
      rw [List.get?_eq_getElem?, List.getElem?_append_right (by omega)]
      simp [hR]
    have e4 : ((r0 :: rs).reverse ++ [t1, t2]).take (rs.length + 3 - 2) =
        (r0 :: rs).reverse := by
      apply List.take_left'
      omega
    rw [e2, e3, e4]
    simp only [Option.getD_some]
    split
    · split <;> rfl
    · next h => exact absurd (by omega) h

/-- C1 (amended): acceptance inside a trip block is by *prefix* time
shape on the last two tokens (so trailing characters after a
`dd:dd:dd` shape are tolerated, the times then being whatever the
tolerant parser yields); with the claim's accepted example, its
rejected example, and both inside a real trip block. -/
theorem spec_C1_stop_record_policy :
    (∀ (c : CurTrip) (line : String),
      stepStop c line =
        match specStopLine line with
        | some r =>
          { c with stops := c.stops ++
              [{ name := r.1, arrival_time := some r.2.1,
                 departure_time := some r.2.2,
                 sequence := c.stops.length + 1 }] }
        | none => c) ∧
    specStopLine "Central Station 08:00:00 08:02:00" =
      some ("Central Station", ⟨8, 0, 0⟩, ⟨8, 2, 0⟩) ∧
    specStopLine "Central Station 8:00 8:02" = none ∧
    extractTrips ["1-1 08:00:00",
        "Central Station 08:00:00 08:02:00", "Central Station 8:00 8:02"] =
      [{ trip_id := "1-1", start_time := ⟨8, 0, 0⟩,
         stops := [{ name := "Central Station",
                     arrival_time := some ⟨8, 0, 0⟩,
                     departure_time := some ⟨8, 2, 0⟩,
                     sequence := 1 }] }] :=
  ⟨specStopLine_eq_stepStop, by decide, by decide, by decide⟩

/-! ## C7 / C9 — parser invariants on produced stops -/

/-- The invariant the parser maintains on a stop list: sequences are
exactly 1, 2, 3, … in order, and both times are present. -/
def goodStops (stops : List Stop) : Prop :=
  stops.map Stop.sequence = List.range' 1 stops.length ∧
    ∀ s ∈ stops, s.arrival_time ≠ none ∧ s.departure_time ≠ none

theorem goodStops_nil : goodStops [] := by
  constructor
  · rfl
  · intro s hs
    simp at hs

theorem goodStops_step (c : CurTrip) (line : String)
    (h : goodStops c.stops) : goodStops (stepStop c line).stops := by
  unfold stepStop
  dsimp only
  split
  · split
    · constructor
      · simp only [List.map_append, List.length_append, List.map_cons,
          List.map_nil, List.length_cons, List.length_nil, h.1]
        rw [show c.stops.length + (0 + 1) = c.stops.length + 1 by omega,
          List.range'_1_concat]
        simp [Nat.add_comm]
      · intro s hs
        rcases List.mem_append.mp hs with h1 | h2
        · exact h.2 s h1
        · simp at h2
          subst h2
          simp
    · exact h
  · exact h

theorem goodStops_flush (cur : Option CurTrip)
    (hc : ∀ c, cur = some c → goodStops c.stops) :
    ∀ t ∈ flushTrip cur, goodStops t.stops := by
  intro t ht
  rcases cur with _ | c
  · simp [flushTrip] at ht
  · simp only [flushTrip] at ht
    split at ht
    · simp at ht
    · simp at ht
      subst ht
      exact hc c rfl

theorem startTrip_stops (s : String) : (startTrip s).stops = [] := rfl

theorem extractAux_good :
    ∀ (lines : List String) (cur : Option CurTrip) (acc : List Trip),
      (∀ t ∈ acc, goodStops t.stops) →
      (∀ c, cur = some c → goodStops c.stops) →
      ∀ t ∈ extractAux lines cur acc, goodStops t.stops := by
  intro lines cur acc
  induction lines, cur, acc using extractAux.induct with
  | case1 cur acc =>
    intro hacc hcur t ht
    rw [extractAux] at ht
    rcases List.mem_append.mp ht with h | h
    · exact hacc t h
    · exact goodStops_flush cur hcur t h
  | case2 l cur acc s hts =>
    intro hacc hcur t ht
    rw [extractAux.eq_def] at ht
    simp only [hts, if_pos] at ht
    rcases List.mem_append.mp ht with h | h
    · rcases List.mem_append.mp h with h' | h'
      · exact hacc t h'
      · exact goodStops_flush cur hcur t h'
    · refine goodStops_flush _ ?_ t h
      intro c hc
      cases hc
      exact goodStops_nil
  | case3 l cur acc s hts acc2 c h rest hh ih =>
    intro hacc hcur t ht
    rw [extractAux.eq_def] at ht
    simp only [hts, hh, if_pos] at ht
    refine ih ?_ ?_ t ht
    · intro t' ht'
      rcases List.mem_append.mp ht' with h' | h'
      · exact hacc t' h'
      · exact goodStops_flush cur hcur t' h'
    · intro c' hc'
      cases hc'
      exact goodStops_nil
  | case4 l cur acc s hts acc2 c h rest hh ih =>
    intro hacc hcur t ht
    rw [extractAux.eq_def] at ht
    simp only [hts, hh, if_pos, if_neg, Bool.false_eq_true] at ht
    refine ih ?_ ?_ t ht
    · intro t' ht'
      rcases List.mem_append.mp ht' with h' | h'
      · exact hacc t' h'
      · exact goodStops_flush cur hcur t' h'
    · intro c' hc'
      cases hc'
      exact goodStops_nil
  | case5 l rest acc s hts ih =>
    intro hacc hcur t ht
    rw [extractAux.eq_def] at ht
    simp only [hts, if_neg, Bool.false_eq_true] at ht
    exact ih hacc hcur t ht
  | case6 l rest acc s hts c ih =>
    intro hacc hcur t ht
    rw [extractAux.eq_def] at ht
    simp only [hts, if_neg, Bool.false_eq_true] at ht
    refine ih hacc ?_ t ht
    intro c' hc'
    cases hc'
    exact goodStops_step c (pyStrip l) (hcur c rfl)

/-- C7: in every trip the parser produces, the stop `sequence` values
are exactly 1, 2, 3, … in acceptance order (the 1-based running count
of accepted stop records), independently of anything in the raw text. -/
theorem spec_C7_sequences (lines : List String) (t : Trip)
    (ht : t ∈ extractTrips lines) :
    t.stops.map Stop.sequence = List.range' 1 t.stops.length :=
  (extractAux_good lines none [] (by intro t' ht'; simp at ht')
    (by intro c hc; cases hc) t ht).1

/-- A small schedule block used as concrete input for the parser
witnesses. -/
def demoParseLines : List String :=
  ["Route ID FRG-1", "1-1 08:00:00",
   "stop_name arrival_time departure_time",
   "Central Station 08:00:00 08:02:00",
   "North Ave 08:10:00 08:11:00",
   "1-2 09:00:00",
   "Central Station 09:00:00 09:02:00"]

/-- The first trip `extractTrips demoParseLines` produces. -/
def demoTrip1 : Trip :=
  { trip_id := "1-1", start_time := ⟨8, 0, 0⟩,
    stops := [{ name := "Central Station", arrival_time := some ⟨8, 0, 0⟩,
                departure_time := some ⟨8, 2, 0⟩, sequence := 1 },
              { name := "North Ave", arrival_time := some ⟨8, 10, 0⟩,
                departure_time := some ⟨8, 11, 0⟩, sequence := 2 }] }

/-- Witness for C7 on a concrete parsed schedule block. -/
theorem spec_C7_witness :
    demoTrip1.stops.map Stop.sequence = List.range' 1 demoTrip1.stops.length :=
  spec_C7_sequences demoParseLines demoTrip1 (by decide)

/-- C9: every stop stored by the parser carries concrete arrival and
departure times, although the data model declares both optional. -/
theorem spec_C9_times_present (lines : List String) (t : Trip)
    (ht : t ∈ extractTrips lines) :
    ∀ s ∈ t.stops, s.arrival_time ≠ none ∧ s.departure_time ≠ none :=
  (extractAux_good lines none [] (by intro t' ht'; simp at ht')
    (by intro c hc; cases hc) t ht).2

/-- The first stop of `demoTrip1`. -/
def demoStop1 : Stop :=
  { name := "Central Station", arrival_time := some ⟨8, 0, 0⟩,
    departure_time := some ⟨8, 2, 0⟩, sequence := 1 }

/-- Witness for C9 on the same concrete schedule block. -/
theorem spec_C9_witness :
    demoStop1.arrival_time ≠ none ∧ demoStop1.departure_time ≠ none :=
  spec_C9_times_present demoParseLines demoTrip1 (by decide) demoStop1
    (by decide)

/-! ## C8 — fail-soft schedule loading -/

theorem loadAllRoutes_go (routes_data : List (String × List String))
    (acc : List (String × Route)) :
    routes_data.foldl
        (fun cache kd =>
          match parseRouteFromJson kd.2 with
          | some route => cache ++ [(kd.1, route)]
          | none => cache) acc =
      acc ++ loadAllRoutes routes_data := by
  induction routes_data generalizing acc with
  | nil => simp [loadAllRoutes]
  | cons kd rest ih =>
    simp only [loadAllRoutes, List.foldl_cons]
    rcases hp : parseRouteFromJson kd.2 with _ | r
    · rw [ih, ih []]
      simp
    · rw [ih, ih ([] ++ [(kd.1, r)])]
      simp

theorem loadAllRoutes_cons (kd : String × List String)
    (rest : List (String × List String)) :
    loadAllRoutes (kd :: rest) =
      (match parseRouteFromJson kd.2 with
       | some r => [(kd.1, r)]
       | none => []) ++ loadAllRoutes rest := by
  simp only [loadAllRoutes, List.foldl_cons]
  rw [loadAllRoutes_go]
  rcases hp : parseRouteFromJson kd.2 with _ | r <;> simp [hp, loadAllRoutes]

theorem loadAllRoutes_mem_src (routes_data : List (String × List String))
    (k : String) (r : Route) (h : (k, r) ∈ loadAllRoutes routes_data) :
    ∃ d, (k, d) ∈ routes_data ∧ parseRouteFromJson d = some r := by
  induction routes_data with
  | nil => simp [loadAllRoutes] at h
  | cons kd rest ih =>
    rw [loadAllRoutes_cons] at h
    rcases hp : parseRouteFromJson kd.2 with _ | r' <;> rw [hp] at h <;>
      simp at h
    · obtain ⟨d, hd, hpd⟩ := ih h
      exact ⟨d, List.mem_cons_of_mem _ hd, hpd⟩
    · rcases h with ⟨hk, hr⟩ | hrest
      · subst hk
        subst hr
        exact ⟨kd.2, by simp, hp⟩
      · obtain ⟨d, hd, hpd⟩ := ih hrest
        exact ⟨d, List.mem_cons_of_mem _ hd, hpd⟩

theorem loadAllRoutes_mem_tgt (routes_data : List (String × List String))
    (k : String) (d : List String) (r : Route)
    (hmem : (k, d) ∈ routes_data) (hsome : parseRouteFromJson d = some r) :
    (k, r) ∈ loadAllRoutes routes_data := by
  induction routes_data with
  | nil => simp at hmem
  | cons kd rest ih =>
    rw [loadAllRoutes_cons]
    rcases List.mem_cons.mp hmem with heq | hrest
    · subst heq
      rw [hsome]
      simp
    · rcases hp : parseRouteFromJson kd.2 with _ | r' <;>
        simp [List.mem_append]
      · exact ih hrest
      · right
        exact ih hrest

/-- C8: schedule loading fails soft — for every input mapping, a route
key is carried to the output exactly through a successful parse: parse
failures (no recognized labeled field at all, an unparseable labeled
value, an invalid direction) are skipped without stopping the rest of
the load, and the loader is a total function of the input (never
raises), returning whatever subset parsed. -/
theorem spec_C8_fail_soft (routes_data : List (String × List String)) :
    ((loadAllRoutes routes_data).length ≤ routes_data.length) ∧
    (∀ k r, (k, r) ∈ loadAllRoutes routes_data →
      ∃ d, (k, d) ∈ routes_data ∧ parseRouteFromJson d = some r) ∧
    (∀ k d r, (k, d) ∈ routes_data → parseRouteFromJson d = some r →
      (k, r) ∈ loadAllRoutes routes_data) ∧
    (∀ k d, (k, d) ∈ routes_data → parseRouteFromJson d = none →
      (∀ d', (k, d') ∈ routes_data → parseRouteFromJson d' = none) →
      ∀ r, (k, r) ∉ loadAllRoutes routes_data) ∧
    (∀ d, extractRouteInfo d = none → parseRouteFromJson d = none) ∧
    (∀ d, extractRouteInfo d = some {} → parseRouteFromJson d = none) := by
  refine ⟨?_, fun k r h => loadAllRoutes_mem_src routes_data k r h,
    fun k d r hm hs => loadAllRoutes_mem_tgt routes_data k d r hm hs,
    ?_, ?_, ?_⟩
  · induction routes_data with
    | nil => simp [loadAllRoutes]
    | cons kd rest ih =>
      rw [loadAllRoutes_cons]
      rcases hp : parseRouteFromJson kd.2 with _ | r <;>
        simp [List.length_append] <;> omega
  · intro k d hmem hnone hall r hcontra
    obtain ⟨d', hd', hpd'⟩ := loadAllRoutes_mem_src routes_data k r hcontra
    rw [hall d' hd'] at hpd'
    cases hpd'
  · intro d hnone
    unfold parseRouteFromJson
    rw [hnone]
  · intro d hempty
    unfold parseRouteFromJson
    rw [hempty]
    simp

/-- A well-formed route block and its parse result, for the C8 witness. -/
def goodLines : List String := ["Short Name FRG-9", "Direction Forward"]

def goodRoute : Route :=
  { route_id := "", short_name := "FRG-9", long_name := "",
    direction := Direction.Forward, total_trips := 0, average_headway := 60,
    trips := [] }

/-- Witness for C8: with one malformed block (invalid direction value)
and one good block, the loader keeps exactly the good one. -/
theorem spec_C8_witness :
    ("good", goodRoute) ∈
      loadAllRoutes [("bad", ["Direction Sideways"]), ("good", goodLines)] ∧
    loadAllRoutes [("bad", ["Direction Sideways"]), ("good", goodLines)] =
      [("good", goodRoute)] :=
  ⟨(spec_C8_fail_soft [("bad", ["Direction Sideways"]), ("good", goodLines)]
      ).2.2.1 "good" goodLines goodRoute (by decide) (by decide),
   by decide⟩

/-! ## Demo planner data (concrete inputs for planner witnesses) -/

def mkDemoStop (n : String) (t : PTime) (seq : Nat) : Stop :=
  { name := n, arrival_time := some t, departure_time := some t,
    sequence := seq }

/-- Departs the origin at 07:55, 20-minute journey. -/
def demoTripEarly : Trip :=
  ⟨"1-1", ⟨7, 55, 0⟩,
   [mkDemoStop "A" ⟨7, 55, 0⟩ 1, mkDemoStop "B" ⟨8, 15, 0⟩ 2]⟩

/-- Departs the origin at 08:10, 15-minute journey. -/
def demoTripLate : Trip :=
  ⟨"1-2", ⟨8, 10, 0⟩,
   [mkDemoStop "A" ⟨8, 10, 0⟩ 1, mkDemoStop "B" ⟨8, 25, 0⟩ 2]⟩

/-- A Green Line route (short name prefixed `FRG-`) with both trips. -/
def demoRoute : Route :=
  ⟨"R1", "FRG-1", "Green demo", Direction.Forward, 2, 15,
   [demoTripEarly, demoTripLate]⟩

/-- Preferred time 08:00, no line filter. -/
def demoReq : RoutePlanningRequest := ⟨"A", "B", some ⟨8, 0, 0⟩, 30, none⟩

/-! ## C3 — unknown or unordered stops give an empty result -/

/-- Claim side: the query name matches a stop (case-insensitively)
either directly or after the fixed Blue Line alias translation —
exactly the two comparisons `find_routes_between_stops` performs. -/
def matchesQuery (q : String) (s : Stop) : Bool :=
  lowEq s.name q || lowEq s.name (mapStopNameForRoutes q)

theorem scanStop_origin_track (o d : String) (st : FindState) (s : Stop)
    (h : (scanStop o d st s).origin_found = true) :
    (st.origin_found = true ∧
      (scanStop o d st s).origin_sequence = st.origin_sequence) ∨
    (matchesQuery o s = true ∧
      (scanStop o d st s).origin_sequence = (s.sequence : Int)) := by
  unfold scanStop scanMappedDestination scanMappedOrigin scanExact at *
  unfold matchesQuery
  split_ifs at * <;> simp_all

theorem scanStop_dest_track (o d : String) (st : FindState) (s : Stop)
    (h : (scanStop o d st s).destination_found = true) :
    (st.destination_found = true ∧
      (scanStop o d st s).destination_sequence = st.destination_sequence) ∨
    (matchesQuery d s = true ∧
      (scanStop o d st s).destination_sequence = (s.sequence : Int)) := by
  unfold scanStop scanMappedDestination scanMappedOrigin scanExact at *
  unfold matchesQuery
  split_ifs at * <;> simp_all

theorem scan_fold_origin (o d : String) (stops : List Stop) :
    ∀ st : FindState,
      (stops.foldl (scanStop o d) st).origin_found = true →
      (st.origin_found = true ∧
        (stops.foldl (scanStop o d) st).origin_sequence =
          st.origin_sequence) ∨
      ∃ s ∈ stops, matchesQuery o s = true ∧
        (stops.foldl (scanStop o d) st).origin_sequence =
          (s.sequence : Int) := by
  induction stops with
  | nil =>
    intro st h
    exact Or.inl ⟨h, rfl⟩
  | cons s rest ih =>
    intro st h
    simp only [List.foldl_cons] at h ⊢
    rcases ih (scanStop o d st s) h with ⟨h1, hseq⟩ | ⟨s', hmem, hm, hseq⟩
    · rcases scanStop_origin_track o d st s h1 with ⟨h2, hseq2⟩ | ⟨hm, hseq2⟩
      · exact Or.inl ⟨h2, by rw [hseq, hseq2]⟩
      · exact Or.inr ⟨s, by simp, hm, by rw [hseq, hseq2]⟩
    · exact Or.inr ⟨s', by simp [hmem], hm, hseq⟩

theorem scan_fold_dest (o d : String) (stops : List Stop) :
    ∀ st : FindState,
      (stops.foldl (scanStop o d) st).destination_found = true →
      (st.destination_found = true ∧
        (stops.foldl (scanStop o d) st).destination_sequence =
          st.destination_sequence) ∨
      ∃ s ∈ stops, matchesQuery d s = true ∧
        (stops.foldl (scanStop o d) st).destination_sequence =
          (s.sequence : Int) := by
  induction stops with
  | nil =>
    intro st h
    exact Or.inl ⟨h, rfl⟩
  | cons s rest ih =>
    intro st h
    simp only [List.foldl_cons] at h ⊢
    rcases ih (scanStop o d st s) h with ⟨h1, hseq⟩ | ⟨s', hmem, hm, hseq⟩
    · rcases scanStop_dest_track o d st s h1 with ⟨h2, hseq2⟩ | ⟨hm, hseq2⟩
      · exact Or.inl ⟨h2, by rw [hseq, hseq2]⟩
      · exact Or.inr ⟨s, by simp, hm, by rw [hseq, hseq2]⟩
    · exact Or.inr ⟨s', by simp [hmem], hm, hseq⟩

/-- A connecting trip exhibits stops matching origin and destination
with the origin's sequence strictly smaller. -/
theorem tripConnects_exists (o d : String) (t : Trip)
    (h : tripConnects o d t = true) :
    ∃ so ∈ t.stops, ∃ sd ∈ t.stops,
      matchesQuery o so = true ∧ matchesQuery d sd = true ∧
        so.sequence < sd.sequence := by
  unfold tripConnects at h
  simp only [Bool.and_eq_true, decide_eq_true_eq] at h
  obtain ⟨⟨hof, hdf⟩, hlt⟩ := h
  rcases scan_fold_origin o d t.stops {} hof with ⟨h1, _⟩ | ⟨so, hso, hmo, hseqo⟩
  · cases h1
  rcases scan_fold_dest o d t.stops {} hdf with ⟨h1, _⟩ | ⟨sd, hsd, hmd, hseqd⟩
  · cases h1
  refine ⟨so, hso, sd, hsd, hmo, hmd, ?_⟩
  rw [hseqo, hseqd] at hlt
  exact_mod_cast hlt

theorem filterRoutesByLine_nil (ml : Option String) :
    filterRoutesByLine [] ml = [] := by
  cases ml <;> rfl

/-- When no route connects the pair, planning yields the empty list. -/
theorem planRoute_of_no_connect (routes : List (String × Route))
    (req : RoutePlanningRequest)
    (h : findRoutesBetweenStops routes req.origin req.destination = []) :
    planRoute routes req = [] := by
  unfold planRoute
  rw [h]
  simp only [filterRoutesByLine_nil, List.filterMap_nil]
  cases req.preferred_time <;> simp [stableSort]

/-- C3: a plan query whose origin (even after the fixed alias
translation) matches no stop of any loaded trip returns the empty list
(and, being a total function, raises nothing); likewise when in every
trip every destination-matching stop sits at or before every
origin-matching stop — non-connecting routes are silently excluded,
never an error. -/
theorem spec_C3_empty_results (routes : List (String × Route))
    (request : RoutePlanningRequest) :
    ((∀ kr ∈ routes, ∀ t ∈ kr.2.trips, ∀ s ∈ t.stops,
        matchesQuery request.origin s = false) →
      planRoute routes request = []) ∧
    ((∀ kr ∈ routes, ∀ t ∈ kr.2.trips, ∀ so ∈ t.stops, ∀ sd ∈ t.stops,
        matchesQuery request.origin so = true →
        matchesQuery request.destination sd = true →
        sd.sequence ≤ so.sequence) →
      planRoute routes request = []) := by
  constructor
  · intro hnone
    refine planRoute_of_no_connect routes request ?_
    unfold findRoutesBetweenStops
    rw [List.filter_eq_nil_iff]
    intro kr hkr
    simp only [Bool.not_eq_true, List.any_eq_false]
    intro t ht
    rcases hcon : tripConnects request.origin request.destination t with _ | _
    · rfl
    · obtain ⟨so, hso, sd, hsd, hmo, _, _⟩ :=
        tripConnects_exists _ _ t hcon
      rw [hnone kr hkr t ht so hso] at hmo
      cases hmo
  · intro horder
    refine planRoute_of_no_connect routes request ?_
    unfold findRoutesBetweenStops
    rw [List.filter_eq_nil_iff]
    intro kr hkr
    simp only [Bool.not_eq_true, List.any_eq_false]
    intro t ht
    rcases hcon : tripConnects request.origin request.destination t with _ | _
    · rfl
    · obtain ⟨so, hso, sd, hsd, hmo, hmd, hlt⟩ :=
        tripConnects_exists _ _ t hcon
      have := horder kr hkr t ht so hso sd hsd hmo hmd
      omega

/-- A request whose origin name occurs nowhere in the loaded trips. -/
def demoReqUnknown : RoutePlanningRequest :=
  ⟨"Nowhere", "B", none, 30, none⟩

/-- Witness for C3: planning from an unknown origin over the demo route
map returns the empty list. -/
theorem spec_C3_witness :
    planRoute [("r1", demoRoute)] demoReqUnknown = [] :=
  (spec_C3_empty_results [("r1", demoRoute)] demoReqUnknown).1 (by decide)

/-! ## C10 — `metro_lines` mirrors the request's filter only -/

theorem mem_insertLe {α : Type} (le : α → α → Bool) (x a : α) :
    ∀ l : List α, a ∈ insertLe le x l ↔ a = x ∨ a ∈ l := by
  intro l
  induction l with
  | nil => simp [insertLe]
  | cons y ys ih =>
    unfold insertLe
    split
    · simp [ih]
      tauto
    · simp

theorem mem_stableSort {α : Type} (le : α → α → Bool) (l : List α) (a : α) :
    a ∈ stableSort le l ↔ a ∈ l := by
  suffices h : ∀ l acc : List α,
      (a ∈ l.foldl (fun acc x => insertLe le x acc) acc ↔ a ∈ acc ∨ a ∈ l) by
    rw [stableSort, h l []]
    simp
  intro l
  induction l with
  | nil => simp
  | cons x xs ih =>
    intro acc
    simp only [List.foldl_cons]
    rw [ih (insertLe le x acc), mem_insertLe]
    simp
    tauto

theorem mkRoutePlan_metro_lines (request : RoutePlanningRequest)
    (route : Route) (trip : Trip) (a b : Stop) :
    (mkRoutePlan request route trip a b).metro_lines =
      match request.metro_line with
      | some l => [l]
      | none => [] := rfl

/-- C10: every returned plan's `metro_lines` is the one-element list
holding the request's line filter when one was supplied and the empty
list otherwise — never derived from the chosen route's own line
classification. -/
theorem spec_C10_metro_lines (routes : List (String × Route))
    (request : RoutePlanningRequest) (plan : RoutePlan)
    (h : plan ∈ planRoute routes request) :
    plan.metro_lines =
      match request.metro_line with
      | some l => [l]
      | none => [] := by
  unfold planRoute at h
  have hmem : plan ∈
      (filterRoutesByLine
          (findRoutesBetweenStops routes request.origin request.destination)
          (request.metro_line.map MetroLine.value)).filterMap
        (fun kr =>
          (findBestTrip kr.2 request.origin request.destination
              request.preferred_time).map
            (fun tod => mkRoutePlan request kr.2 tod.1 tod.2.1 tod.2.2)) := by
    rcases hpref : request.preferred_time with _ | p <;> rw [hpref] at h <;>
      exact (mem_stableSort _ _ plan).mp (List.take_subset 5 _ h)
  obtain ⟨kr, _, hplan⟩ := List.mem_filterMap.mp hmem
  obtain ⟨tod, _, hplan2⟩ := Option.map_eq_some'.mp hplan
  rw [← hplan2, mkRoutePlan_metro_lines]

/-- The plan the demo request produces (the 07:55 trip wins). -/
def demoPlanEarly : RoutePlan :=
  mkRoutePlan demoReq demoRoute demoTripEarly
    (mkDemoStop "A" ⟨7, 55, 0⟩ 1) (mkDemoStop "B" ⟨8, 15, 0⟩ 2)

/-- Witness for C10: without a line filter the plan reports no metro
lines even though the chosen route is a Green Line route. -/
theorem spec_C10_witness : demoPlanEarly.metro_lines = [] :=
  spec_C10_metro_lines [("r1", demoRoute)] demoReq demoPlanEarly (by decide)

/-! ## C2 — best-trip selection and cross-route ranking -/

/-- Claim side: lexicographic less-or-equal on score pairs (ties allowed,
so that in `firstMinBy` the earlier element survives a tie). -/
def keyLexLe (a b : Nat × Nat) : Bool :=
  a.1 < b.1 || (a.1 == b.1 && a.2 ≤ b.2)

/-- Claim side: the first element attaining the lexicographic minimum of
`key` — "the trip minimizing the pair, with earlier-evaluated trips
winning ties". -/
def firstMinBy {α : Type} (key : α → Nat × Nat) : List α → Option α
  | [] => none
  | x :: xs =>
    match firstMinBy key xs with
    | none => some x
    | some y => if keyLexLe (key x) (key y) then some x else some y

/-- The trips of a route on which `find_best_trip`'s stop scan finds
both an origin and a destination stop with the origin strictly earlier,
each with those stops. -/
def qualList (origin destination : String) (ts : List Trip) :
    List (Trip × Stop × Stop) :=
  ts.filterMap (fun t =>
    match findStopsIn origin destination t.stops with
    | (some o, some d) =>
      if o.sequence < d.sequence then some (t, o, d) else none
    | _ => none)

def qualifyingTrips (origin destination : String) (route : Route) :
    List (Trip × Stop × Stop) :=
  qualList origin destination route.trips

/-- Claim side: the score the claim ascribes to a qualifying trip under
a preferred time — circular absolute minutes from the preferred time to
the trip's origin departure, then wrap-safe journey minutes. -/
def specTripKey (p : PTime) (r : Trip × Stop × Stop) : Nat × Nat :=
  (circularAbsMinutes p (timeOr0 r.2.1.departure_time),
   minutesForward (timeOr0 r.2.1.departure_time)
     (timeOr0 r.2.2.arrival_time))

theorem scoreLt_iff (a b : Nat × Nat) :
    scoreLt a b = true ↔ a.1 < b.1 ∨ (a.1 = b.1 ∧ a.2 < b.2) := by
  simp [scoreLt]

theorem keyLexLe_iff (a b : Nat × Nat) :
    keyLexLe a b = true ↔ a.1 < b.1 ∨ (a.1 = b.1 ∧ a.2 ≤ b.2) := by
  simp [keyLexLe]

theorem keyLexLe_eq_not_scoreLt (a b : Nat × Nat) :
    keyLexLe a b = !scoreLt b a := by
  rw [Bool.eq_iff_iff]
  simp only [keyLexLe_iff, Bool.not_eq_true', ← Bool.not_eq_true,
    scoreLt_iff]
  constructor
  · intro h hc
    rcases h with h | ⟨h1, h2⟩ <;> rcases hc with hc | ⟨hc1, hc2⟩ <;> omega
  · intro h
    by_cases h1 : a.1 < b.1
    · exact Or.inl h1
    · right
      constructor <;> omega

theorem scoreLt_trans (a b c : Nat × Nat) (h1 : scoreLt a b = true)
    (h2 : scoreLt b c = true) : scoreLt a c = true := by
  simp only [scoreLt_iff] at *
  omega

theorem scoreLt_cotrans (a b c : Nat × Nat) (h : scoreLt a c = true) :
    scoreLt a b = true ∨ scoreLt b c = true := by
  simp only [scoreLt_iff] at *
  omega

/-- The score `find_best_trip` computes for a candidate is exactly the
claim's score. -/
theorem tripScore_eq_specTripKey (p : PTime) (r : Trip × Stop × Stop) :
    tripScore (some p) r.2.1 r.2.2 = specTripKey p r := rfl

theorem qualList_cons (origin destination : String) (t : Trip)
    (ts : List Trip) :
    qualList origin destination (t :: ts) =
      (match findStopsIn origin destination t.stops with
       | (some o, some d) =>
         if o.sequence < d.sequence then some (t, o, d) else none
       | _ => none).toList ++ qualList origin destination ts := by
  simp only [qualList, List.filterMap_cons]
  rcases findStopsIn origin destination t.stops with ⟨_ | o, _ | d⟩
  · simp
  · simp
  · simp
  · by_cases hlt : o.sequence < d.sequence <;> simp [hlt]

theorem findBestAux_some (pref : Option PTime) (origin destination : String) :
    ∀ (ts : List Trip) (b : Trip × Stop × Stop) (bsc : Nat × Nat),
      bsc = tripScore pref b.2.1 b.2.2 →
      findBestAux pref origin destination ts (some (b, bsc)) =
        some (match firstMinBy (fun r => tripScore pref r.2.1 r.2.2)
                (qualList origin destination ts) with
              | none => (b, bsc)
              | some y =>
                if scoreLt (tripScore pref y.2.1 y.2.2) bsc then
                  (y, tripScore pref y.2.1 y.2.2)
                else (b, bsc)) := by
  intro ts
  induction ts with
  | nil =>
    intro b bsc hb
    simp [findBestAux, qualList, firstMinBy]
  | cons t ts ih =>
    intro b bsc hb
    rw [findBestAux, qualList_cons]
    rcases hfs : findStopsIn origin destination t.stops with ⟨_ | so, _ | sd⟩
    · simpa using ih b bsc hb
    · simpa using ih b bsc hb
    · simpa using ih b bsc hb
    · dsimp only
      by_cases hseq : so.sequence < sd.sequence
      · simp only [if_pos hseq, Option.toList_some, List.cons_append,
          List.nil_append, firstMinBy]
        by_cases hcb : scoreLt (tripScore pref so sd) bsc = true
        · rw [if_pos hcb, ih (t, so, sd) (tripScore pref so sd) rfl]
          rcases hmin : firstMinBy (fun r => tripScore pref r.2.1 r.2.2)
              (qualList origin destination ts) with _ | y <;> rw [hmin]
          · simp [hcb]
          · dsimp only
            by_cases hcy :
                keyLexLe (tripScore pref so sd) (tripScore pref y.2.1 y.2.2) =
                  true
            · have hyc : scoreLt (tripScore pref y.2.1 y.2.2)
                  (tripScore pref so sd) = false := by
                rw [keyLexLe_eq_not_scoreLt] at hcy
                simpa using hcy
              simp [hcy, hyc, hcb]
            · have hyc : scoreLt (tripScore pref y.2.1 y.2.2)
                  (tripScore pref so sd) = true := by
                rw [keyLexLe_eq_not_scoreLt] at hcy
                simpa using hcy
              have hyb : scoreLt (tripScore pref y.2.1 y.2.2) bsc = true :=
                scoreLt_trans _ _ _ hyc hcb
              simp [hcy, hyc, hyb]
        · rw [if_neg hcb, ih b bsc hb]
          rcases hmin : firstMinBy (fun r => tripScore pref r.2.1 r.2.2)
              (qualList origin destination ts) with _ | y <;> rw [hmin]
          · simp [hcb]
          · dsimp only
            by_cases hcy :
                keyLexLe (tripScore pref so sd) (tripScore pref y.2.1 y.2.2) =
                  true
            · have hyc : scoreLt (tripScore pref y.2.1 y.2.2)
                  (tripScore pref so sd) = false := by
                rw [keyLexLe_eq_not_scoreLt] at hcy
                simpa using hcy
              have hyb : scoreLt (tripScore pref y.2.1 y.2.2) bsc = false := by
                rcases hw : scoreLt (tripScore pref y.2.1 y.2.2) bsc with _ | _
                · rfl
                · rcases scoreLt_cotrans _ (tripScore pref so sd) _ hw with
                    hc | hc
                  · rw [hc] at hyc
                    cases hyc
                  · rw [hc] at hcb
                    cases hcb rfl
              simp [hcy, hyb, hcb]
            · have hyc : scoreLt (tripScore pref y.2.1 y.2.2)
                  (tripScore pref so sd) = true := by
                rw [keyLexLe_eq_not_scoreLt] at hcy
                simpa using hcy
              simp [hcy]
      · simp only [if_neg hseq, Option.toList_none, List.nil_append]
        exact ih b bsc hb

theorem findBestAux_none (pref : Option PTime) (origin destination : String) :
    ∀ ts : List Trip,
      findBestAux pref origin destination ts none =
        (firstMinBy (fun r => tripScore pref r.2.1 r.2.2)
            (qualList origin destination ts)).map
          (fun c => (c, tripScore pref c.2.1 c.2.2)) := by
  intro ts
  induction ts with
  | nil => simp [findBestAux, qualList, firstMinBy]
  | cons t ts ih =>
    rw [findBestAux, qualList_cons]
    rcases hfs : findStopsIn origin destination t.stops with ⟨_ | so, _ | sd⟩
    · simpa using ih
    · simpa using ih
    · simpa using ih
    · dsimp only
      by_cases hseq : so.sequence < sd.sequence
      · simp only [if_pos hseq, Option.toList_some, List.cons_append,
          List.nil_append, firstMinBy]
        rw [findBestAux_some pref origin destination ts (t, so, sd)
          (tripScore pref so sd) rfl]
        rcases hmin : firstMinBy (fun r => tripScore pref r.2.1 r.2.2)
            (qualList origin destination ts) with _ | y <;> rw [hmin]
        · simp
        · dsimp only
          rw [keyLexLe_eq_not_scoreLt]
          rcases hyc : scoreLt (tripScore pref y.2.1 y.2.2)
              (tripScore pref so sd) with _ | _ <;> simp
      · simp only [if_neg hseq, Option.toList_none, List.nil_append]
        exact ih

/-- `find_best_trip` refines the claim's selection rule. -/
theorem findBestTrip_eq_firstMin (route : Route)
    (origin destination : String) (p : PTime) :
    findBestTrip route origin destination (some p) =
      firstMinBy (specTripKey p) (qualifyingTrips origin destination route) := by
  unfold findBestTrip qualifyingTrips
  rw [findBestAux_none]
  rw [show (fun r : Trip × Stop × Stop =>
        tripScore (some p) r.2.1 r.2.2) = specTripKey p from
      funext fun r => tripScore_eq_specTripKey p r]
  rcases firstMinBy (specTripKey p)
      (qualList origin destination route.trips) with _ | c <;> rfl

/-- Claim side: the cross-route ranking order — ascending by
`(total_wait_time, duration_minutes of the single segment)`. -/
def specPlanLe (a b : RoutePlan) : Prop :=
  a.total_wait_time < b.total_wait_time ∨
    (a.total_wait_time = b.total_wait_time ∧
      firstSegDuration a ≤ firstSegDuration b)

theorem waitKeyLe_iff (a b : RoutePlan) :
    waitKeyLe a b = true ↔ specPlanLe a b := by
  simp [waitKeyLe, specPlanLe]

theorem waitKeyLe_total (a b : RoutePlan) :
    waitKeyLe a b = true ∨ waitKeyLe b a = true := by
  simp only [waitKeyLe_iff, specPlanLe]
  omega

theorem waitKeyLe_trans (a b c : RoutePlan) (h1 : waitKeyLe a b = true)
    (h2 : waitKeyLe b c = true) : waitKeyLe a c = true := by
  simp only [waitKeyLe_iff, specPlanLe] at *
  omega

theorem sorted_insertLe {α : Type} (le : α → α → Bool)
    (htot : ∀ a b, le a b = true ∨ le b a = true)
    (htrans : ∀ a b c, le a b = true → le b c = true → le a c = true)
    (x : α) :
    ∀ l : List α, List.Sorted (fun a b => le a b = true) l →
      List.Sorted (fun a b => le a b = true) (insertLe le x l) := by
  intro l
  induction l with
  | nil =>
    intro _
    simp [insertLe]
  | cons y ys ih =>
    intro hs
    rw [List.sorted_cons] at hs
    unfold insertLe
    split
    · rw [List.sorted_cons]
      refine ⟨?_, ih hs.2⟩
      intro z hz
      rcases (mem_insertLe le x z ys).mp hz with hzx | hzys
      · subst hzx
        assumption
      · exact hs.1 z hzys
    · rw [List.sorted_cons]
      constructor
      · intro z hz
        have hxy : le x y = true := by
          rcases htot x y with h | h
          · exact h
          · simp_all
        rcases List.mem_cons.mp hz with hzy | hzys
        · subst hzy
          exact hxy
        · exact htrans x y z hxy (hs.1 z hzys)
      · exact List.sorted_cons.mpr hs

theorem sorted_stableSort {α : Type} (le : α → α → Bool)
    (htot : ∀ a b, le a b = true ∨ le b a = true)
    (htrans : ∀ a b c, le a b = true → le b c = true → le a c = true)
    (l : List α) :
    List.Sorted (fun a b => le a b = true) (stableSort le l) := by
  suffices h : ∀ (l acc : List α),
      List.Sorted (fun a b => le a b = true) acc →
      List.Sorted (fun a b => le a b = true)
        (l.foldl (fun acc x => insertLe le x acc) acc) by
    exact h l [] (by simp)
  intro l
  induction l with
  | nil =>
    intro acc h
    simpa using h
  | cons x xs ih =>
    intro acc h
    simp only [List.foldl_cons]
    exact ih (insertLe le x acc) (sorted_insertLe le htot htrans x acc h)

/-- C2: with a preferred time, within each route `find_best_trip`
selects exactly the first qualifying trip minimizing (circular absolute
minutes from the preferred time to the trip's origin departure,
wrap-safe journey minutes) — earlier-evaluated trips winning ties;
across routes the returned plans are sorted ascending by
`(total_wait_time, duration_minutes)` and capped at five; and in the
concrete example a trip departing 07:55 with a 20-minute journey ranks
above one departing 08:10 with a 15-minute journey for
`preferred_time = 08:00`. -/
theorem spec_C2_ranking :
    (∀ (p : PTime) (route : Route) (origin destination : String),
      findBestTrip route origin destination (some p) =
        firstMinBy (specTripKey p)
          (qualifyingTrips origin destination route)) ∧
    (∀ (routes : List (String × Route)) (request : RoutePlanningRequest)
        (p : PTime), request.preferred_time = some p →
      List.Sorted specPlanLe (planRoute routes request) ∧
      (planRoute routes request).length ≤ 5) ∧
    (findBestTrip demoRoute "A" "B" (some ⟨8, 0, 0⟩)).map
        (fun r => r.1.trip_id) = some "1-1" := by
  refine ⟨fun p route origin destination =>
    findBestTrip_eq_firstMin route origin destination p, ?_, by decide⟩
  intro routes request p hpref
  constructor
  · unfold planRoute
    rw [hpref]
    refine List.Pairwise.sublist (List.take_sublist _ _) ?_
    refine List.Pairwise.imp (fun hab => (waitKeyLe_iff _ _).mp hab) ?_
    exact sorted_stableSort waitKeyLe waitKeyLe_total waitKeyLe_trans _
  · unfold planRoute
    rw [hpref]
    simp [List.length_take]

/-- Witness for C2 on the demo route map: the selection equation at the
claim's concrete configuration, and the ranked result list is sorted
and within the cap. -/
theorem spec_C2_witness :
    findBestTrip demoRoute "A" "B" (some ⟨8, 0, 0⟩) =
      firstMinBy (specTripKey ⟨8, 0, 0⟩)
        (qualifyingTrips "A" "B" demoRoute) ∧
    List.Sorted specPlanLe (planRoute [("r1", demoRoute)] demoReq) ∧
    (planRoute [("r1", demoRoute)] demoReq).length ≤ 5 :=
  ⟨spec_C2_ranking.1 ⟨8, 0, 0⟩ demoRoute "A" "B",
   (spec_C2_ranking.2.1 [("r1", demoRoute)] demoReq ⟨8, 0, 0⟩ rfl).1,
   (spec_C2_ranking.2.1 [("r1", demoRoute)] demoReq ⟨8, 0, 0⟩ rfl).2⟩

end MetroBus
